import Mathlib

/-! Verification development for the Artemis firmware uploader core
(`src/tools/artemis_firmware_uploader_gui.py`).  The Python source is
shallowly embedded: byte arrays become `List Nat` (each element a byte
value), Python integers become `Nat` (with explicit masking where the
source masks), serial reads become explicit consumption of a byte-stream
list, and fallible procedures return `Option`.  Helper routines that the
source imports from the vendor's `am_defines.py`/`keys_info.py` (absent
from the repository snapshot) are modelled from the specification and
marked as such in their doc comments. -/

namespace Artemis

/-- The 256-entry CRC-16 table from `RemoteWidget.__init__` (`self.crcTable`),
copied verbatim from the source. -/
def crcTable : List Nat := [
  0x0000, 0x8005, 0x800F, 0x000A, 0x801B, 0x001E, 0x0014, 0x8011,
  0x8033, 0x0036, 0x003C, 0x8039, 0x0028, 0x802D, 0x8027, 0x0022,
  0x8063, 0x0066, 0x006C, 0x8069, 0x0078, 0x807D, 0x8077, 0x0072,
  0x0050, 0x8055, 0x805F, 0x005A, 0x804B, 0x004E, 0x0044, 0x8041,
  0x80C3, 0x00C6, 0x00CC, 0x80C9, 0x00D8, 0x80DD, 0x80D7, 0x00D2,
  0x00F0, 0x80F5, 0x80FF, 0x00FA, 0x80EB, 0x00EE, 0x00E4, 0x80E1,
  0x00A0, 0x80A5, 0x80AF, 0x00AA, 0x80BB, 0x00BE, 0x00B4, 0x80B1,
  0x8093, 0x0096, 0x009C, 0x8099, 0x0088, 0x808D, 0x8087, 0x0082,
  0x8183, 0x0186, 0x018C, 0x8189, 0x0198, 0x819D, 0x8197, 0x0192,
  0x01B0, 0x81B5, 0x81BF, 0x01BA, 0x81AB, 0x01AE, 0x01A4, 0x81A1,
  0x01E0, 0x81E5, 0x81EF, 0x01EA, 0x81FB, 0x01FE, 0x01F4, 0x81F1,
  0x81D3, 0x01D6, 0x01DC, 0x81D9, 0x01C8, 0x81CD, 0x81C7, 0x01C2,
  0x0140, 0x8145, 0x814F, 0x014A, 0x815B, 0x015E, 0x0154, 0x8151,
  0x8173, 0x0176, 0x017C, 0x8179, 0x0168, 0x816D, 0x8167, 0x0162,
  0x8123, 0x0126, 0x012C, 0x8129, 0x0138, 0x813D, 0x8137, 0x0132,
  0x0110, 0x8115, 0x811F, 0x011A, 0x810B, 0x010E, 0x0104, 0x8101,
  0x8303, 0x0306, 0x030C, 0x8309, 0x0318, 0x831D, 0x8317, 0x0312,
  0x0330, 0x8335, 0x833F, 0x033A, 0x832B, 0x032E, 0x0324, 0x8321,
  0x0360, 0x8365, 0x836F, 0x036A, 0x837B, 0x037E, 0x0374, 0x8371,
  0x8353, 0x0356, 0x035C, 0x8359, 0x0348, 0x834D, 0x8347, 0x0342,
  0x03C0, 0x83C5, 0x83CF, 0x03CA, 0x83DB, 0x03DE, 0x03D4, 0x83D1,
  0x83F3, 0x03F6, 0x03FC, 0x83F9, 0x03E8, 0x83ED, 0x83E7, 0x03E2,
  0x83A3, 0x03A6, 0x03AC, 0x83A9, 0x03B8, 0x83BD, 0x83B7, 0x03B2,
  0x0390, 0x8395, 0x839F, 0x039A, 0x838B, 0x038E, 0x0384, 0x8381,
  0x0280, 0x8285, 0x828F, 0x028A, 0x829B, 0x029E, 0x0294, 0x8291,
  0x82B3, 0x02B6, 0x02BC, 0x82B9, 0x02A8, 0x82AD, 0x82A7, 0x02A2,
  0x82E3, 0x02E6, 0x02EC, 0x82E9, 0x02F8, 0x82FD, 0x82F7, 0x02F2,
  0x02D0, 0x82D5, 0x82DF, 0x02DA, 0x82CB, 0x02CE, 0x02C4, 0x82C1,
  0x8243, 0x0246, 0x024C, 0x8249, 0x0258, 0x825D, 0x8257, 0x0252,
  0x0270, 0x8275, 0x827F, 0x027A, 0x826B, 0x026E, 0x0264, 0x8261,
  0x0220, 0x8225, 0x822F, 0x022A, 0x823B, 0x023E, 0x0234, 0x8231,
  0x8213, 0x0216, 0x021C, 0x8219, 0x0208, 0x820D, 0x8207, 0x0202]

/-- Table lookup `self.crcTable[tableAddr]` (in the source the index is
always a byte, so it is in range; out-of-range defaults to 0). -/
def crcTableAt (i : Nat) : Nat := crcTable.getD i 0

/-- One iteration of the `for ch in data` loop of `get_crc16`
(src lines 539-543). -/
def crc16Step (crc ch : Nat) : Nat :=
  let tableAddr := ch ^^^ (crc >>> 8)
  let CRCH := (crcTableAt tableAddr >>> 8) ^^^ (crc &&& 0xFF)
  let CRCL := crcTableAt tableAddr &&& 0x00FF
  CRCH <<< 8 ||| CRCL

/-- `get_crc16(data)` (src lines 533-545): fold the per-byte step over the
data starting from `crc = 0x0000`. -/
def get_crc16 (data : List Nat) : Nat := data.foldl crc16Step 0

/-- Python `n.to_bytes(2, 'big')` for `n < 2^16`, as used by `send_packet`
for the length field and the CRC. -/
def to_be2 (n : Nat) : List Nat := [n >>> 8, n &&& 0xFF]

set_option maxRecDepth 2048 in
/-- Every table entry fits in 16 bits. -/
lemma crcTable_bounded : ∀ x ∈ crcTable, x < 65536 := by decide

/-- Any lookup result fits in 16 bits. -/
lemma crcTableAt_lt (i : Nat) : crcTableAt i < 65536 := by
  unfold crcTableAt
  rw [List.getD_eq_getElem?_getD]
  cases h : crcTable[i]? with
  | none => simp
  | some x =>
    simpa using crcTable_bounded x (List.getElem?_mem h)

/-- The zeroth table entry is 0. -/
lemma crcTableAt_zero : crcTableAt 0 = 0 := rfl

/-- The CRC step always produces a 16-bit value, whatever its inputs. -/
lemma crc16Step_lt (crc ch : Nat) : crc16Step crc ch < 65536 := by
  unfold crc16Step
  have h1 : crcTableAt (ch ^^^ (crc >>> 8)) >>> 8 < 256 := by
    rw [Nat.shiftRight_eq_div_pow]
    exact Nat.div_lt_of_lt_mul (crcTableAt_lt _)
  have h2 : crc &&& 0xFF < 256 := Nat.lt_succ_of_le Nat.and_le_right
  have hCRCH : (crcTableAt (ch ^^^ (crc >>> 8)) >>> 8) ^^^ (crc &&& 0xFF) < 256 := by
    have := Nat.xor_lt_two_pow (n := 8) h1 h2
    simpa using this
  have hsh : ((crcTableAt (ch ^^^ (crc >>> 8)) >>> 8) ^^^ (crc &&& 0xFF)) <<< 8 < 65536 := by
    have := Nat.shiftLeft_lt (n := 8) (m := 8) hCRCH
    simpa using this
  have hCRCL : crcTableAt (ch ^^^ (crc >>> 8)) &&& 0x00FF < 65536 := by
    have : crcTableAt (ch ^^^ (crc >>> 8)) &&& 0x00FF < 256 := Nat.lt_succ_of_le Nat.and_le_right
    omega
  have := Nat.or_lt_two_pow (n := 16) (by simpa using hsh) (by simpa using hCRCL)
  simpa using this

/-- Folding the CRC step preserves the 16-bit bound. -/
lemma foldl_crc16Step_lt (data : List Nat) :
    ∀ crc : Nat, crc < 65536 → data.foldl crc16Step crc < 65536 := by
  induction data with
  | nil => intro crc h; simpa using h
  | cons b rest ih =>
    intro crc _
    rw [List.foldl_cons]
    exact ih _ (crc16Step_lt crc b)

/-- `get_crc16` always returns a 16-bit value. -/
lemma get_crc16_lt (data : List Nat) : get_crc16 data < 65536 :=
  foldl_crc16Step_lt data 0 (by decide)

/-- Feeding the high CRC byte into the step zeroes the table index
(`table[0] = 0`), leaving the low byte shifted up. -/
lemma crc16Step_high (c : Nat) : crc16Step c (c >>> 8) = (c &&& 0xFF) <<< 8 := by
  unfold crc16Step
  simp [Nat.xor_self, crcTableAt_zero, Nat.zero_xor, Nat.or_zero, Nat.zero_and]

/-- Feeding the low CRC byte then drives the register to zero. -/
lemma crc16Step_low (c : Nat) : crc16Step ((c &&& 0xFF) <<< 8) (c &&& 0xFF) = 0 := by
  unfold crc16Step
  have hshift : ((c &&& 0xFF) <<< 8) >>> 8 = c &&& 0xFF := by
    rw [Nat.shiftLeft_eq, Nat.shiftRight_eq_div_pow]
    exact Nat.mul_div_cancel _ (by norm_num)
  have hlow : ((c &&& 0xFF) <<< 8) &&& 0xFF = 0 := by
    rw [Nat.shiftLeft_eq]
    have : (0xFF : Nat) = 2 ^ 8 - 1 := rfl
    rw [this, Nat.and_pow_two_sub_one_eq_mod]
    exact Nat.mul_mod_left _ _
  rw [hshift]
  simp [Nat.xor_self, crcTableAt_zero, Nat.zero_xor, hlow, Nat.zero_and]

/-- Appending the two big-endian CRC bytes drives the register to zero. -/
lemma get_crc16_append_crc (F : List Nat) :
    get_crc16 (F ++ to_be2 (get_crc16 F)) = 0 := by
  unfold get_crc16 to_be2
  rw [List.foldl_append]
  show crc16Step (crc16Step (List.foldl crc16Step 0 F) (List.foldl crc16Step 0 F >>> 8))
      (List.foldl crc16Step 0 F &&& 0xFF) = 0
  rw [crc16Step_high, crc16Step_low]

/-- C1: for every byte sequence `F`, appending the two big-endian bytes of
`crc16(F)` yields a sequence whose `crc16` is 0 (the claimed check value
`crc16([0x01, 0x00]) = 0x8463` is wrong on the code; the code computes
`0x8603`, which is the second conjunct as amended). -/
theorem crc16_no_error_and_check_value (F : List Nat) :
    get_crc16 (F ++ to_be2 (get_crc16 F)) = 0 ∧ get_crc16 [0x01, 0x00] = 0x8603 :=
  ⟨get_crc16_append_crc F, by decide⟩

/-- C1 counterexample: the spec's check value `0x8463` is not what
`get_crc16` returns on `[0x01, 0x00]` (the code yields `0x8603`). -/
theorem crc16_check_value_counterexample : ¬ (get_crc16 [0x01, 0x00] = 0x8463) := by
  decide

/-- Python index clamping for a slice bound on a sequence of length `n`:
negative indices count from the end, and both directions clamp into
`[0, n]`. -/
def pyIdx (n : Nat) (i : Int) : Nat := if i < 0 then (i + n).toNat else min i.toNat n

/-- Python slice `l[a:b]` (step 1) with full negative-index and clamping
semantics. -/
def pySlice (l : List Nat) (a b : Int) : List Nat :=
  (l.take (pyIdx l.length b)).drop (pyIdx l.length a)

/-- Python `int.from_bytes(bs, byteorder='big', signed=False)`. -/
def from_be (bs : List Nat) : Nat := bs.foldl (fun acc b => acc * 256 + b) 0

/-- The dict returned by `wait_for_packet` (src line 551):
`{'len':0, 'cmd':0, 'data':0, 'crc':1, 'timeout':1}`.  `data` is a byte
sequence here (the Python default `0` is a placeholder the SVL driver
never reads on timeout paths). -/
structure SvlPacket where
  len : Nat
  cmd : Nat
  data : List Nat
  crc : Nat
  timeout : Nat
deriving DecidableEq

/-- The defaulted packet dict before any field is filled in. -/
def initPacket : SvlPacket := { len := 0, cmd := 0, data := [], crc := 1, timeout := 1 }

/-- `wait_for_packet` (src lines 548-575) over an explicit byte stream:
every `self.ser.read(n)` takes up to `n` bytes off the stream (fewer if
the stream is exhausted, which is pyserial's timeout behaviour).  Returns
the packet dict and the unread remainder of the stream. -/
def wait_for_packet (stream : List Nat) : SvlPacket × List Nat :=
  if (stream.take 2).length < 2 then (initPacket, stream.drop 2)
  else if from_be (stream.take 2) = 0 then
    ({ initPacket with len := from_be (stream.take 2) }, stream.drop 2)
  else if ((stream.drop 2).take (from_be (stream.take 2))).length ≠ from_be (stream.take 2) then
    ({ initPacket with len := from_be (stream.take 2) },
      (stream.drop 2).drop (from_be (stream.take 2)))
  else
    ({ len := from_be (stream.take 2)
       cmd := ((stream.drop 2).take (from_be (stream.take 2))).getD 0 0
       data := pySlice ((stream.drop 2).take (from_be (stream.take 2))) 1
         ((from_be (stream.take 2) : Int) - 2)
       crc := get_crc16 ((stream.drop 2).take (from_be (stream.take 2)))
       timeout := 0 }, (stream.drop 2).drop (from_be (stream.take 2)))

/-- `send_packet(cmd, data)` (src lines 578-592): the bytes written to the
serial port — big-endian 2-byte `3 + len(data)`, then
`cmd | data | crc16(cmd|data)` big-endian. -/
def send_packet (cmd : Nat) (data : List Nat) : List Nat :=
  to_be2 (3 + data.length) ++ ((cmd :: data) ++ to_be2 (get_crc16 (cmd :: data)))

/-- Decoding the 2-byte big-endian length recovers the value. -/
lemma from_be_to_be2 (n : Nat) : from_be (to_be2 n) = n := by
  simp only [from_be, to_be2, List.foldl_cons, List.foldl_nil]
  rw [Nat.shiftRight_eq_div_pow]
  have h255 : (0xFF : Nat) = 2 ^ 8 - 1 := rfl
  rw [h255, Nat.and_pow_two_sub_one_eq_mod]
  omega

/-- `wait_for_packet` on a stream holding exactly a length-prefixed
payload: full parse, no timeout. -/
lemma wait_for_packet_complete (payload : List Nat) (hne : payload.length ≠ 0) :
    wait_for_packet (to_be2 payload.length ++ payload) =
      ({ len := payload.length
         cmd := payload.getD 0 0
         data := pySlice payload 1 ((payload.length : Int) - 2)
         crc := get_crc16 payload
         timeout := 0 }, []) := by
  unfold wait_for_packet
  have htake : (to_be2 payload.length ++ payload).take 2 = to_be2 payload.length := by
    simp [to_be2]
  have hdrop : (to_be2 payload.length ++ payload).drop 2 = payload := by
    simp [to_be2]
  have hlen2 : (to_be2 payload.length).length = 2 := rfl
  rw [htake, hdrop, hlen2, from_be_to_be2, List.take_length]
  rw [if_neg (by omega), if_neg hne, if_neg (by simp)]
  simp [List.drop_length]

/-- `pySlice` with non-negative bounds is take-then-drop with clamping. -/
lemma pySlice_natCast (l : List Nat) (a b : Nat) :
    pySlice l (a : Int) (b : Int) = (l.take (min b l.length)).drop (min a l.length) := by
  unfold pySlice pyIdx
  rw [if_neg (by omega), if_neg (by omega)]
  simp [Int.toNat_natCast]

/-- C2: the packet built by `send_packet(cmd, data)` starts with the
big-endian 2-byte encoding of `3 + len(data)`, and `wait_for_packet` on
exactly those bytes returns `cmd` and `data` unchanged, with CRC residue
0 and the timeout flag cleared. -/
theorem send_packet_roundtrip (cmd : Nat) (data : List Nat)
    (hcmd : cmd < 256) (hlen : 3 + data.length < 65536) :
    (send_packet cmd data).take 2 = to_be2 (3 + data.length) ∧
    (wait_for_packet (send_packet cmd data)).1 =
      { len := 3 + data.length, cmd := cmd, data := data, crc := 0, timeout := 0 } := by
  have hplen : (cmd :: (data ++ to_be2 (get_crc16 (cmd :: data)))).length = 3 + data.length := by
    simp [to_be2]
    omega
  refine ⟨by simp [send_packet, to_be2], ?_⟩
  have hcomplete := wait_for_packet_complete
    (cmd :: (data ++ to_be2 (get_crc16 (cmd :: data)))) (by rw [hplen]; omega)
  rw [hplen] at hcomplete
  unfold send_packet
  simp only [List.cons_append]
  rw [hcomplete]
  have hcast : ((3 + data.length : Nat) : Int) - 2 = ((1 + data.length : Nat) : Int) := by
    push_cast
    ring
  have hslice : pySlice (cmd :: (data ++ to_be2 (get_crc16 (cmd :: data)))) 1
      (((3 + data.length : Nat) : Int) - 2) = data := by
    rw [hcast, show ((1 : Int)) = ((1 : Nat) : Int) from rfl, pySlice_natCast, hplen]
    rw [Nat.min_eq_left (by omega), Nat.min_eq_left (by omega)]
    rw [show 1 + data.length = data.length + 1 from by omega]
    rw [List.take_succ_cons, List.take_left]
    simp
  rw [hslice]
  have hcrc : get_crc16 (cmd :: (data ++ to_be2 (get_crc16 (cmd :: data)))) = 0 := by
    have := get_crc16_append_crc (cmd :: data)
    simpa using this
  rw [hcrc]
  rfl

/-- C2 witness: the round trip at `cmd = 0x04`, `data = [0xAA, 0xBB]`. -/
theorem send_packet_roundtrip_witness :
    (send_packet 4 [0xAA, 0xBB]).take 2 = to_be2 (3 + [0xAA, 0xBB].length) ∧
    (wait_for_packet (send_packet 4 [0xAA, 0xBB])).1 =
      { len := 3 + [0xAA, 0xBB].length, cmd := 4, data := [0xAA, 0xBB], crc := 0, timeout := 0 } :=
  send_packet_roundtrip 4 [0xAA, 0xBB] (by decide) (by decide)

/-- Slicing a parsed payload `cmd :: data ++ crc_bytes` from index 1 to
`len - 2` recovers the data bytes. -/
lemma pySlice_mid (c : Nat) (mid tail : List Nat) :
    pySlice (c :: (mid ++ tail)) 1 (((3 + mid.length : Nat) : Int) - 2) = mid := by
  have hcast : (((3 + mid.length : Nat) : Int)) - 2 = ((1 + mid.length : Nat) : Int) := by
    push_cast
    ring
  rw [hcast, show ((1 : Int)) = ((1 : Nat) : Int) from rfl, pySlice_natCast]
  have hl : (c :: (mid ++ tail)).length = mid.length + tail.length + 1 := by simp
  rw [hl, Nat.min_eq_left (by omega), Nat.min_eq_left (by omega)]
  rw [show 1 + mid.length = mid.length + 1 from by omega]
  rw [List.take_succ_cons, List.take_left]
  simp

/-- C7: case analysis of `wait_for_packet` over an arbitrary input stream:
fewer than 2 length bytes means timeout; a decoded length of 0 returns an
empty packet having consumed only the 2 length bytes; a short payload read
means timeout; and a full read yields `cmd` = first payload byte, `data` =
the payload between `cmd` and the 2 CRC bytes, `crc` = `crc16` of the
whole payload, timeout cleared. -/
theorem wait_for_packet_behavior (stream : List Nat) :
    (stream.length < 2 → (wait_for_packet stream).1.timeout = 1) ∧
    (2 ≤ stream.length → from_be (stream.take 2) = 0 →
      wait_for_packet stream = ({ initPacket with len := 0 }, stream.drop 2)) ∧
    (2 ≤ stream.length → from_be (stream.take 2) ≠ 0 →
      stream.length - 2 < from_be (stream.take 2) →
      (wait_for_packet stream).1.timeout = 1) ∧
    (∀ c c1 c2 : Nat, ∀ mid : List Nat, 2 ≤ stream.length →
      from_be (stream.take 2) ≠ 0 →
      (stream.drop 2).take (from_be (stream.take 2)) = c :: (mid ++ [c1, c2]) →
      from_be (stream.take 2) = 3 + mid.length →
      (wait_for_packet stream).1 =
        { len := 3 + mid.length, cmd := c, data := mid
          crc := get_crc16 (c :: (mid ++ [c1, c2])), timeout := 0 }) := by
  have htl : (stream.take 2).length = min 2 stream.length := List.length_take 2 stream
  refine ⟨?_, ?_, ?_, ?_⟩
  · intro h
    unfold wait_for_packet
    rw [if_pos (by omega)]
    rfl
  · intro h h0
    unfold wait_for_packet
    rw [if_neg (by omega), if_pos h0, h0]
  · intro h h0 hshort
    unfold wait_for_packet
    have hpl : ((stream.drop 2).take (from_be (stream.take 2))).length =
        min (from_be (stream.take 2)) (stream.length - 2) := by
      simp [List.length_take, List.length_drop]
    rw [if_neg (by omega), if_neg h0, if_pos (by rw [hpl]; omega)]
    rfl
  · intro c c1 c2 mid h h0 hdecomp hL
    unfold wait_for_packet
    have hple : ((stream.drop 2).take (from_be (stream.take 2))).length =
        from_be (stream.take 2) := by
      rw [hdecomp, hL]
      simp
      omega
    rw [if_neg (by omega), if_neg h0, if_neg (by rw [hple]; simp)]
    rw [hdecomp, hL]
    have hslice := pySlice_mid c mid [c1, c2]
    simp only [List.getD_cons_zero]
    rw [show ((3 + mid.length : Nat) : Int) = ((3 + mid.length : Nat) : Int) from rfl] at hslice
    rw [hslice]

/-- C7 witness: the four cases at concrete streams — `[5]` (short length
read), `[0, 0]` (length 0), `[0, 9, 1]` (short payload), and
`[0, 4, 3, 7, 0xD6, 0x24]` (a full NEXT packet with one data byte). -/
theorem wait_for_packet_behavior_witness :
    (wait_for_packet [5]).1.timeout = 1 ∧
    wait_for_packet [0, 0] = ({ initPacket with len := 0 }, []) ∧
    (wait_for_packet [0, 9, 1]).1.timeout = 1 ∧
    (wait_for_packet [0, 4, 3, 7, 0xD6, 0x24]).1 =
      { len := 3 + [7].length, cmd := 3, data := [7]
        crc := get_crc16 (3 :: ([7] ++ [0xD6, 0x24])), timeout := 0 } := by
  refine ⟨(wait_for_packet_behavior [5]).1 (by decide), ?_,
    (wait_for_packet_behavior [0, 9, 1]).2.2.1 (by decide) (by decide) (by decide),
    (wait_for_packet_behavior [0, 4, 3, 7, 0xD6, 0x24]).2.2.2 3 0xD6 0x24 [7]
      (by decide) (by decide) (by decide) (by decide)⟩
  have := (wait_for_packet_behavior [0, 0]).2.1 (by decide) (by decide)
  simpa using this

/-- SVL command bytes from `RemoteWidget.__init__` (src lines 113-118). -/
def SVL_CMD_VER : Nat := 0x01

/-- SVL command: enter bootload mode. -/
def SVL_CMD_BL : Nat := 0x02

/-- SVL command: request next chunk. -/
def SVL_CMD_NEXT : Nat := 0x03

/-- SVL command: indicate app data frame. -/
def SVL_CMD_FRAME : Nat := 0x04

/-- SVL command: request re-send frame. -/
def SVL_CMD_RETRY : Nat := 0x05

/-- SVL command: finished, all data sent. -/
def SVL_CMD_DONE : Nat := 0x06

/-- `frame_size = 512*4` (src line 630). -/
def frame_size : Nat := 512 * 4

/-- `total_frames = math.ceil(total_len/frame_size)` (src line 641). -/
def totalFrames (app : List Nat) : Nat := (app.length + frame_size - 1) / frame_size

/-- The frame payload
`application[((curr_frame-1)*frame_size):((curr_frame-1+1)*frame_size)]`
(src line 675), with Python's negative-index slice semantics (relevant
for `curr_frame = 0`). -/
def frameData (app : List Nat) (currFrame : Nat) : List Nat :=
  pySlice app (((currFrame : Int) - 1) * frame_size) (((currFrame : Int) - 1 + 1) * frame_size)

/-- The mutable locals of `phase_bootload`'s while loop (src lines 642-680),
together with the ordered list of `(cmd, payload)` packets the loop has
passed to `send_packet`. -/
structure BLState where
  currFrame : Nat
  resendCount : Nat
  blDone : Bool
  blFailed : Bool
  sent : List (Nat × List Nat)
deriving DecidableEq

/-- The loop state on entry to `phase_bootload`'s while loop. -/
def phase_bootload_init : BLState :=
  { currFrame := 0, resendCount := 0, blDone := false, blFailed := false, sent := [] }

/-- The receive part of one iteration of `phase_bootload`'s while loop
(src lines 652-672): the timeout/CRC check is a separate `if` (not
`elif`), then the command dispatch always runs. -/
def phase_bootload_dispatch (s : BLState) (p : SvlPacket) : BLState :=
  let s1 := if p.timeout ≠ 0 ∨ p.crc ≠ 0 then { s with blFailed := true, blDone := true } else s
  if p.cmd = SVL_CMD_NEXT then
    { s1 with currFrame := s1.currFrame + 1, resendCount := 0 }
  else if p.cmd = SVL_CMD_RETRY then
    if s1.resendCount + 1 ≥ 4 then
      { s1 with resendCount := s1.resendCount + 1, blFailed := true, blDone := true }
    else
      { s1 with resendCount := s1.resendCount + 1 }
  else
    { s1 with blFailed := true, blDone := true }

/-- One full iteration of `phase_bootload`'s while loop (src lines
650-680): receive dispatch followed by the send step, which always runs
(even when the dispatch just failed). -/
def phase_bootload_step (app : List Nat) (tf : Nat) (s : BLState) (p : SvlPacket) : BLState :=
  if (phase_bootload_dispatch s p).currFrame ≤ tf then
    { phase_bootload_dispatch s p with
        sent := (phase_bootload_dispatch s p).sent ++
          [(SVL_CMD_FRAME, frameData app (phase_bootload_dispatch s p).currFrame)] }
  else
    { phase_bootload_dispatch s p with
        sent := (phase_bootload_dispatch s p).sent ++ [(SVL_CMD_DONE, [])], blDone := true }

/-- The receive dispatch never writes to the wire. -/
lemma phase_bootload_dispatch_sent (s : BLState) (p : SvlPacket) :
    (phase_bootload_dispatch s p).sent = s.sent := by
  unfold phase_bootload_dispatch
  split_ifs <;> simp [apply_ite]

/-- The while loop of `phase_bootload`, consuming one received packet per
iteration; a partial run that stops when the loop exits or the supplied
packets are exhausted. -/
def phase_bootload_run (app : List Nat) (tf : Nat) : BLState → List SvlPacket → BLState
  | s, [] => s
  | s, p :: ps =>
    if s.blDone ∨ s.blFailed then s
    else phase_bootload_run app tf (phase_bootload_step app tf s p) ps

/-- A packet that arrived whole with passing CRC. -/
def goodPacket (p : SvlPacket) : Prop := p.timeout = 0 ∧ p.crc = 0

/-- Whether a packet stream contains, from resend counter `r`, a run of
consecutive RETRY commands that drives the counter to the cap 4 (the
counter resets on every non-RETRY command). -/
def retryFails : Nat → List SvlPacket → Bool
  | _, [] => false
  | r, p :: ps =>
    if p.cmd = SVL_CMD_RETRY then decide (4 ≤ r + 1) || retryFails (r + 1) ps
    else retryFails 0 ps

/-- Receive dispatch of a valid NEXT packet. -/
lemma phase_bootload_dispatch_next (s : BLState) (p : SvlPacket)
    (hgood : goodPacket p) (hcmd : p.cmd = SVL_CMD_NEXT) :
    phase_bootload_dispatch s p = { s with currFrame := s.currFrame + 1, resendCount := 0 } := by
  unfold phase_bootload_dispatch
  simp [hgood.1, hgood.2, hcmd]

/-- Receive dispatch of a valid RETRY packet below the cap. -/
lemma phase_bootload_dispatch_retry_low (s : BLState) (p : SvlPacket)
    (hgood : goodPacket p) (hcmd : p.cmd = SVL_CMD_RETRY) (hlow : s.resendCount + 1 < 4) :
    phase_bootload_dispatch s p = { s with resendCount := s.resendCount + 1 } := by
  unfold phase_bootload_dispatch
  have h3 : ¬ 3 ≤ s.resendCount := by omega
  simp [hgood.1, hgood.2, hcmd, SVL_CMD_NEXT, SVL_CMD_RETRY, h3]

/-- Receive dispatch of a valid RETRY packet at the cap: the run fails. -/
lemma phase_bootload_dispatch_retry_cap (s : BLState) (p : SvlPacket)
    (hgood : goodPacket p) (hcmd : p.cmd = SVL_CMD_RETRY) (hcap : 4 ≤ s.resendCount + 1) :
    phase_bootload_dispatch s p =
      { s with resendCount := s.resendCount + 1, blFailed := true, blDone := true } := by
  unfold phase_bootload_dispatch
  have h3 : 3 ≤ s.resendCount := by omega
  simp [hgood.1, hgood.2, hcmd, SVL_CMD_NEXT, SVL_CMD_RETRY, h3]

/-- A loop iteration on a valid NEXT packet: advance the frame counter,
reset the resend counter, and send the next FRAME (or DONE when past the
last frame). -/
lemma phase_bootload_step_next (app : List Nat) (tf : Nat) (s : BLState) (p : SvlPacket)
    (hgood : goodPacket p) (hcmd : p.cmd = SVL_CMD_NEXT) :
    phase_bootload_step app tf s p =
      if s.currFrame + 1 ≤ tf then
        { s with currFrame := s.currFrame + 1, resendCount := 0
                 sent := s.sent ++ [(SVL_CMD_FRAME, frameData app (s.currFrame + 1))] }
      else
        { s with currFrame := s.currFrame + 1, resendCount := 0, blDone := true
                 sent := s.sent ++ [(SVL_CMD_DONE, [])] } := by
  unfold phase_bootload_step
  rw [phase_bootload_dispatch_next s p hgood hcmd]

/-- A loop iteration on a valid RETRY packet below the resend cap: count
the resend and re-send the current FRAME. -/
lemma phase_bootload_step_retry_low (app : List Nat) (tf : Nat) (s : BLState) (p : SvlPacket)
    (hgood : goodPacket p) (hcmd : p.cmd = SVL_CMD_RETRY)
    (hlow : s.resendCount + 1 < 4) (hcurr : s.currFrame ≤ tf) :
    phase_bootload_step app tf s p =
      { s with resendCount := s.resendCount + 1
               sent := s.sent ++ [(SVL_CMD_FRAME, frameData app s.currFrame)] } := by
  unfold phase_bootload_step
  rw [phase_bootload_dispatch_retry_low s p hgood hcmd hlow]
  simp [hcurr]

/-- A loop iteration on a valid RETRY packet that reaches the resend cap:
the loop fails, but still re-sends the current FRAME first. -/
lemma phase_bootload_step_retry_cap (app : List Nat) (tf : Nat) (s : BLState) (p : SvlPacket)
    (hgood : goodPacket p) (hcmd : p.cmd = SVL_CMD_RETRY)
    (hcap : 4 ≤ s.resendCount + 1) (hcurr : s.currFrame ≤ tf) :
    phase_bootload_step app tf s p =
      { s with resendCount := s.resendCount + 1, blFailed := true, blDone := true
               sent := s.sent ++ [(SVL_CMD_FRAME, frameData app s.currFrame)] } := by
  unfold phase_bootload_step
  rw [phase_bootload_dispatch_retry_cap s p hgood hcmd hcap]
  simp [hcurr]

/-- A finished (done or failed) loop state absorbs all further packets. -/
lemma phase_bootload_run_stop (app : List Nat) (tf : Nat) (s : BLState) (ps : List SvlPacket)
    (h : s.blDone = true ∨ s.blFailed = true) :
    phase_bootload_run app tf s ps = s := by
  cases ps with
  | nil => rfl
  | cons p ps =>
    unfold phase_bootload_run
    rw [if_pos (by rcases h with h | h <;> simp [h])]

/-- Failure analysis of the bootload loop over valid NEXT/RETRY streams:
a failing run never sends DONE, and the input stream must contain a run
of consecutive RETRYs driving the resend counter to the cap. -/
lemma phase_bootload_run_fail (app : List Nat) (tf : Nat) :
    ∀ (ps : List SvlPacket) (s : BLState),
      (∀ p ∈ ps, goodPacket p ∧ (p.cmd = SVL_CMD_NEXT ∨ p.cmd = SVL_CMD_RETRY)) →
      s.blDone = false → s.blFailed = false → s.currFrame ≤ tf →
      (∀ m ∈ s.sent, m.1 ≠ SVL_CMD_DONE) →
      (phase_bootload_run app tf s ps).blFailed = true →
      (∀ m ∈ (phase_bootload_run app tf s ps).sent, m.1 ≠ SVL_CMD_DONE) ∧
        retryFails s.resendCount ps = true := by
  intro ps
  induction ps with
  | nil =>
    intro s _ _ hf _ _ hfail
    rw [phase_bootload_run] at hfail
    rw [hf] at hfail
    exact absurd hfail (by simp)
  | cons p ps ih =>
    intro s hall hd hf hcurr hsent hfail
    have hp := hall p (List.mem_cons_self p ps)
    have hrun : phase_bootload_run app tf s (p :: ps) =
        phase_bootload_run app tf (phase_bootload_step app tf s p) ps := by
      rw [phase_bootload_run, if_neg (by simp [hd, hf])]
    rw [hrun] at hfail ⊢
    rcases hp.2 with hnext | hretry
    · -- NEXT packet
      rw [phase_bootload_step_next app tf s p hp.1 hnext] at hfail ⊢
      by_cases hle : s.currFrame + 1 ≤ tf
      · rw [if_pos hle] at hfail ⊢
        have := ih _ (fun q hq => hall q (List.mem_cons_of_mem p hq))
          (by simp [hd]) (by simp [hf]) (by simpa using hle)
          (by
            intro m hm
            simp only [List.mem_append] at hm
            rcases hm with hm | hm
            · exact hsent m hm
            · simp only [List.mem_singleton] at hm
              subst hm
              exact (by decide : SVL_CMD_FRAME ≠ SVL_CMD_DONE))
          hfail
        refine ⟨this.1, ?_⟩
        rw [retryFails, if_neg (by rw [hnext]; decide)]
        exact this.2
      · rw [if_neg hle] at hfail ⊢
        rw [phase_bootload_run_stop _ _ _ _ (Or.inl (by simp))] at hfail
        simp [hf] at hfail
    · -- RETRY packet
      by_cases hcap : 4 ≤ s.resendCount + 1
      · rw [phase_bootload_step_retry_cap app tf s p hp.1 hretry hcap hcurr] at hfail ⊢
        rw [phase_bootload_run_stop _ _ _ _ (Or.inl (by simp))] at hfail ⊢
        refine ⟨?_, ?_⟩
        · intro m hm
          simp only [List.mem_append] at hm
          rcases hm with hm | hm
          · exact hsent m hm
          · simp only [List.mem_singleton] at hm
            subst hm
            exact (by decide : SVL_CMD_FRAME ≠ SVL_CMD_DONE)
        · rw [retryFails, if_pos hretry]
          simp [hcap]
      · rw [phase_bootload_step_retry_low app tf s p hp.1 hretry (by omega) hcurr] at hfail ⊢
        have := ih _ (fun q hq => hall q (List.mem_cons_of_mem p hq))
          (by simp [hd]) (by simp [hf]) (by simpa using hcurr)
          (by
            intro m hm
            simp only [List.mem_append] at hm
            rcases hm with hm | hm
            · exact hsent m hm
            · simp only [List.mem_singleton] at hm
              subst hm
              exact (by decide : SVL_CMD_FRAME ≠ SVL_CMD_DONE))
          hfail
        refine ⟨this.1, ?_⟩
        rw [retryFails, if_pos hretry]
        simpa using Or.inr this.2

/-- C6: in `phase_bootload`, a valid RETRY increments `resend_count` and
fails the run exactly when the counter reaches the cap 4; a valid NEXT
advances `curr_frame` and resets `resend_count` without failing; and a
run over valid NEXT/RETRY packets that fails never sent DONE and must
contain a capped run of consecutive RETRYs (no intervening NEXT). -/
theorem phase_bootload_retry_semantics (app : List Nat) :
    (∀ (s : BLState) (p : SvlPacket), s.blDone = false → s.blFailed = false →
      goodPacket p → p.cmd = SVL_CMD_RETRY → s.currFrame ≤ totalFrames app →
      (phase_bootload_step app (totalFrames app) s p).resendCount = s.resendCount + 1 ∧
      ((phase_bootload_step app (totalFrames app) s p).blFailed = true ↔
        4 ≤ s.resendCount + 1)) ∧
    (∀ (s : BLState) (p : SvlPacket), s.blDone = false → s.blFailed = false →
      goodPacket p → p.cmd = SVL_CMD_NEXT →
      (phase_bootload_step app (totalFrames app) s p).currFrame = s.currFrame + 1 ∧
      (phase_bootload_step app (totalFrames app) s p).resendCount = 0 ∧
      (phase_bootload_step app (totalFrames app) s p).blFailed = false) ∧
    (∀ ps : List SvlPacket,
      (∀ p ∈ ps, goodPacket p ∧ (p.cmd = SVL_CMD_NEXT ∨ p.cmd = SVL_CMD_RETRY)) →
      (phase_bootload_run app (totalFrames app) phase_bootload_init ps).blFailed = true →
      (∀ m ∈ (phase_bootload_run app (totalFrames app) phase_bootload_init ps).sent,
        m.1 ≠ SVL_CMD_DONE) ∧ retryFails 0 ps = true) := by
  refine ⟨?_, ?_, ?_⟩
  · intro s p hd hf hgood hcmd hcurr
    by_cases hcap : 4 ≤ s.resendCount + 1
    · rw [phase_bootload_step_retry_cap app (totalFrames app) s p hgood hcmd hcap hcurr]
      simp [hcap]
    · rw [phase_bootload_step_retry_low app (totalFrames app) s p hgood hcmd (by omega) hcurr]
      simp [hf, hcap]
  · intro s p hd hf hgood hcmd
    rw [phase_bootload_step_next app (totalFrames app) s p hgood hcmd]
    by_cases hle : s.currFrame + 1 ≤ totalFrames app
    · rw [if_pos hle]
      simp [hf]
    · rw [if_neg hle]
      simp [hf]
  · intro ps hall hfail
    exact phase_bootload_run_fail app (totalFrames app) ps phase_bootload_init hall rfl rfl
      (by simp [phase_bootload_init]) (by simp [phase_bootload_init]) hfail

/-- C6 witness: a RETRY step at resend count 0 on a 1-frame image, and a
run of 4 straight RETRYs that fails without ever sending DONE. -/
theorem phase_bootload_retry_semantics_witness :
    ((phase_bootload_step [0xAA] (totalFrames [0xAA])
        phase_bootload_init { len := 3, cmd := SVL_CMD_RETRY, data := [], crc := 0, timeout := 0 }).resendCount =
      phase_bootload_init.resendCount + 1 ∧
      ((phase_bootload_step [0xAA] (totalFrames [0xAA])
        phase_bootload_init { len := 3, cmd := SVL_CMD_RETRY, data := [], crc := 0, timeout := 0 }).blFailed = true ↔
        4 ≤ phase_bootload_init.resendCount + 1)) ∧
    ((∀ m ∈ (phase_bootload_run [0xAA] (totalFrames [0xAA]) phase_bootload_init
        (List.replicate 4 { len := 3, cmd := SVL_CMD_RETRY, data := [], crc := 0, timeout := 0 })).sent,
      m.1 ≠ SVL_CMD_DONE) ∧
      retryFails 0 (List.replicate 4 { len := 3, cmd := SVL_CMD_RETRY, data := [], crc := 0, timeout := 0 }) = true) :=
  ⟨(phase_bootload_retry_semantics [0xAA]).1 phase_bootload_init
      { len := 3, cmd := SVL_CMD_RETRY, data := [], crc := 0, timeout := 0 }
      rfl rfl ⟨rfl, rfl⟩ rfl (by decide),
    (phase_bootload_retry_semantics [0xAA]).2.2
      (List.replicate 4 { len := 3, cmd := SVL_CMD_RETRY, data := [], crc := 0, timeout := 0 })
      (by
        intro p hp
        rw [List.eq_of_mem_replicate hp]
        exact ⟨⟨rfl, rfl⟩, Or.inr rfl⟩)
      (by decide)⟩

/-- C9: a loop iteration of `phase_bootload` that detects a failure still
performs the send step: whenever `curr_frame ≤ total_frames` after the
command dispatch, the failing iteration appends one more FRAME packet to
the wire — and when that happens with `curr_frame = 0` (failure before
any NEXT), the FRAME payload is empty. -/
theorem phase_bootload_fail_still_sends (app : List Nat) (s : BLState) (p : SvlPacket)
    (hd : s.blDone = false) (hf : s.blFailed = false)
    (hfail : (phase_bootload_step app (totalFrames app) s p).blFailed = true)
    (hcurr : (phase_bootload_step app (totalFrames app) s p).currFrame ≤ totalFrames app) :
    (phase_bootload_step app (totalFrames app) s p).sent =
      s.sent ++ [(SVL_CMD_FRAME,
        frameData app ((phase_bootload_step app (totalFrames app) s p).currFrame))] ∧
    ((phase_bootload_step app (totalFrames app) s p).currFrame = 0 →
      (phase_bootload_step app (totalFrames app) s p).sent =
        s.sent ++ [(SVL_CMD_FRAME, [])]) := by
  have hframe0 : frameData app 0 = [] := by
    unfold frameData pySlice pyIdx
    norm_num
  have hds := phase_bootload_dispatch_sent s p
  unfold phase_bootload_step at hfail hcurr ⊢
  by_cases hle : (phase_bootload_dispatch s p).currFrame ≤ totalFrames app
  · rw [if_pos hle] at hfail hcurr ⊢
    refine ⟨by simp [hds], ?_⟩
    intro h0
    simp only at h0
    simp [hds, h0, hframe0]
  · rw [if_neg hle] at hcurr
    simp only at hcurr
    exact absurd hcurr hle

/-- C9 witness: at the initial state with a pure-timeout packet on a
3-byte image, the failing iteration sends a FRAME with empty payload. -/
theorem phase_bootload_fail_still_sends_witness :
    (phase_bootload_step [1, 2, 3] (totalFrames [1, 2, 3]) phase_bootload_init initPacket).sent =
      phase_bootload_init.sent ++ [(SVL_CMD_FRAME,
        frameData [1, 2, 3] ((phase_bootload_step [1, 2, 3] (totalFrames [1, 2, 3])
          phase_bootload_init initPacket).currFrame))] ∧
    ((phase_bootload_step [1, 2, 3] (totalFrames [1, 2, 3]) phase_bootload_init initPacket).currFrame = 0 →
      (phase_bootload_step [1, 2, 3] (totalFrames [1, 2, 3]) phase_bootload_init initPacket).sent =
        phase_bootload_init.sent ++ [(SVL_CMD_FRAME, [])]) :=
  phase_bootload_fail_still_sends [1, 2, 3] phase_bootload_init initPacket rfl rfl
    (by decide) (by decide)

/-- WU message type constants from `RemoteWidget.__init__`
(src lines 215-223). -/
def AM_SECBOOT_WIRED_MSGTYPE_HELLO : Nat := 0

/-- WU message type STATUS. -/
def AM_SECBOOT_WIRED_MSGTYPE_STATUS : Nat := 1

/-- WU message type OTADESC. -/
def AM_SECBOOT_WIRED_MSGTYPE_OTADESC : Nat := 2

/-- WU message type UPDATE. -/
def AM_SECBOOT_WIRED_MSGTYPE_UPDATE : Nat := 3

/-- WU message type ABORT. -/
def AM_SECBOOT_WIRED_MSGTYPE_ABORT : Nat := 4

/-- WU message type RESET. -/
def AM_SECBOOT_WIRED_MSGTYPE_RESET : Nat := 6

/-- WU message type ACK. -/
def AM_SECBOOT_WIRED_MSGTYPE_ACK : Nat := 7

/-- WU message type DATA. -/
def AM_SECBOOT_WIRED_MSGTYPE_DATA : Nat := 8

/-- Modelled from the spec: ACK status code SUCCESS = 0 (§3).  The constant
`AM_SECBOOT_WIRED_ACK_STATUS_SUCCESS` is referenced by the source (line
1291) but defined in the vendor's `am_defines.py`, which is absent from
the repository snapshot. -/
def AM_SECBOOT_WIRED_ACK_STATUS_SUCCESS : Nat := 0

/-- `self.AM_WU_IMAGEHDR_OFFSET_KEK + self.AM_KEK_SIZE + 16` (src line
240): the 96-byte wired-update header size. -/
def AM_WU_IMAGEHDR_SIZE : Nat := 64 + 16 + 16

/-- `self.FLASH_PAGE_SIZE` (src line 224). -/
def FLASH_PAGE_SIZE : Nat := 0x2000

/-- `self.AM_MAX_UART_MSG_SIZE` (src line 229). -/
def AM_MAX_UART_MSG_SIZE : Nat := 8192

/-- Python `range(n, 0, -1)`: the descending list `[n, n-1, ..., 1]`, as
used by the update loop in `connect_device` (src line 1199). -/
def rangeDown : Nat → List Nat
  | 0 => []
  | n + 1 => (n + 1) :: rangeDown n

/-- `numUpdates = (totalLen + maxUpdateSize - 1) // maxUpdateSize`
(src line 1195). -/
def numUpdates (totalLen maxUpdateSize : Nat) : Nat :=
  (totalLen + maxUpdateSize - 1) / maxUpdateSize

/-- The start offsets of the UPDATE blocks in the order `connect_device`
sends them over the wire: `for numUpdates in range(numUpdates, 0, -1):
start = (numUpdates-1)*maxUpdateSize` (src lines 1199-1200). -/
def connectUpdateStarts (totalLen maxUpdateSize : Nat) : List Nat :=
  (rangeDown (numUpdates totalLen maxUpdateSize)).map (fun k => (k - 1) * maxUpdateSize)

/-- C3 (code bug): for a wired-update image needing two UPDATE blocks
(`totalLen = 2 * (AM_WU_IMAGEHDR_SIZE + split)` with the default
`split = 0x48000`), the start offsets on the wire are `[0x48060, 0]` —
strictly descending, not the ascending order the claim requires. -/
theorem connect_device_update_order_descending :
    connectUpdateStarts (2 * (AM_WU_IMAGEHDR_SIZE + 0x48000)) (AM_WU_IMAGEHDR_SIZE + 0x48000) =
      [0x48060, 0] ∧
    ¬ List.Chain' (· < ·)
      (connectUpdateStarts (2 * (AM_WU_IMAGEHDR_SIZE + 0x48000)) (AM_WU_IMAGEHDR_SIZE + 0x48000)) := by
  constructor
  · rfl
  · intro hchain
    rw [show connectUpdateStarts (2 * (AM_WU_IMAGEHDR_SIZE + 0x48000))
        (AM_WU_IMAGEHDR_SIZE + 0x48000) = [0x48060, 0] from rfl] at hchain
    have := List.chain'_cons.mp hchain
    omega

/-- One call of `updater()` (src lines 1057-1119) from a given entry value
of `self.loadTries`, with `outcomes` the value `connect_device` leaves in
`self.loadSuccess` for each successive connection attempt.  Returns the
final `loadTries`, the number of `connect_device` calls performed, and
whether the upload succeeded.  `loadTries` is incremented only after a
failed attempt, and a successful attempt returns immediately. -/
def updaterLoop : Nat → List Bool → Nat × Nat × Bool
  | lt, [] => (lt, 0, false)
  | lt, o :: rest =>
    if lt < 3 then
      if o then (lt, 1, true)
      else
        ((updaterLoop (lt + 1) rest).1, (updaterLoop (lt + 1) rest).2.1 + 1,
          (updaterLoop (lt + 1) rest).2.2)
    else (lt, 0, false)

/-- C10 counterexample: `loadTries` counts failures, not connection
attempts, so the lifetime number of `connect_device` calls can exceed 3:
a first `updater()` call with outcomes fail, fail, success performs 3
connects and leaves `loadTries = 2`; a second call then performs a 4th
connect. -/
theorem updater_connects_exceed_three :
    updaterLoop 0 [false, false, true] = (2, 3, true) ∧
    updaterLoop 2 [false] = (3, 1, false) ∧
    3 < (updaterLoop 0 [false, false, true]).2.1 + (updaterLoop 2 [false]).2.1 := by
  refine ⟨rfl, rfl, ?_⟩
  decide

/-- C10 (amended): `loadTries` is never reset by `updater()` and is
monotonically non-decreasing; it never exceeds 3 when entered at most 3;
every `connect_device` call except a single final success increments it
(so at most 3 failed attempts ever happen over the object lifetime); and
a call entered with `loadTries ≥ 3` performs zero connection attempts
and reports failure. -/
theorem updater_loadTries_semantics :
    (∀ (lt : Nat) (os : List Bool), lt ≤ (updaterLoop lt os).1) ∧
    (∀ (lt : Nat) (os : List Bool), lt ≤ 3 → (updaterLoop lt os).1 ≤ 3) ∧
    (∀ (lt : Nat) (os : List Bool),
      (updaterLoop lt os).1 + (if (updaterLoop lt os).2.2 then 1 else 0) =
        lt + (updaterLoop lt os).2.1) ∧
    (∀ (lt : Nat) (os : List Bool), 3 ≤ lt → updaterLoop lt os = (lt, 0, false)) := by
  have hstop : ∀ (lt : Nat) (os : List Bool), 3 ≤ lt → updaterLoop lt os = (lt, 0, false) := by
    intro lt os h3
    cases os with
    | nil => rfl
    | cons o rest =>
      rw [updaterLoop, if_neg (by omega)]
  refine ⟨?_, ?_, ?_, hstop⟩
  · intro lt os
    induction os generalizing lt with
    | nil => simp [updaterLoop]
    | cons o rest ih =>
      rw [updaterLoop]
      by_cases hlt : lt < 3
      · rw [if_pos hlt]
        cases o
        · rw [if_neg (by simp)]
          exact Nat.le_trans (Nat.le_succ lt) (ih (lt + 1))
        · rw [if_pos rfl]
      · rw [if_neg hlt]
  · intro lt os
    induction os generalizing lt with
    | nil => intro h; simpa [updaterLoop] using h
    | cons o rest ih =>
      intro h
      rw [updaterLoop]
      by_cases hlt : lt < 3
      · rw [if_pos hlt]
        cases o
        · rw [if_neg (by simp)]
          exact ih (lt + 1) (by omega)
        · rw [if_pos rfl]
          exact h
      · rw [if_neg hlt]
        exact h
  · intro lt os
    induction os generalizing lt with
    | nil => simp [updaterLoop]
    | cons o rest ih =>
      rw [updaterLoop]
      by_cases hlt : lt < 3
      · rw [if_pos hlt]
        cases o
        · rw [if_neg (by simp)]
          show (updaterLoop (lt + 1) rest).1 +
              (if (updaterLoop (lt + 1) rest).2.2 then 1 else 0) =
            lt + ((updaterLoop (lt + 1) rest).2.1 + 1)
          have := ih (lt + 1)
          split_ifs at this ⊢ <;> omega
        · rw [if_pos rfl]
          show lt + (if true then 1 else 0) = lt + 1
          simp
      · rw [if_neg hlt]
        simp

/-- C10 witness: the amended semantics at concrete entry values — a run
entered at 0 with two failures then success ends at `loadTries = 2` and
satisfies the accounting identity, and a run entered at 3 performs no
attempts. -/
theorem updater_loadTries_semantics_witness :
    0 ≤ (updaterLoop 0 [false, false, true]).1 ∧
    (updaterLoop 0 [false, false, true]).1 ≤ 3 ∧
    (updaterLoop 0 [false, false, true]).1 +
      (if (updaterLoop 0 [false, false, true]).2.2 then 1 else 0) =
      0 + (updaterLoop 0 [false, false, true]).2.1 ∧
    updaterLoop 3 [false] = (3, 0, false) :=
  ⟨updater_loadTries_semantics.1 0 [false, false, true],
    updater_loadTries_semantics.2.1 0 [false, false, true] (by decide),
    updater_loadTries_semantics.2.2.1 0 [false, false, true],
    updater_loadTries_semantics.2.2.2 3 [false] (by decide)⟩

/-- One bit step of the Ethernet/zlib CRC-32 (reflected polynomial
0xEDB88320). -/
def crc32Bit (crc : Nat) : Nat :=
  if crc &&& 1 = 1 then (crc >>> 1) ^^^ 0xEDB88320 else crc >>> 1

/-- Eight bit steps. -/
def crc32Bits : Nat → Nat → Nat
  | 0, c => c
  | n + 1, c => crc32Bits n (crc32Bit c)

/-- Modelled from the spec: the `crc32` helper the source imports from
`am_defines.py` (absent from the repository snapshot) — the
"Ethernet/zlib variant, returning the 32-bit unsigned result"
(spec §4.1), i.e. `binascii.crc32`: initial value 0xFFFFFFFF, per-byte
XOR into the low bits, eight reflected-polynomial bit steps per byte,
final complement. -/
def crc32 (data : List Nat) : Nat :=
  (data.foldl (fun c b => crc32Bits 8 (c ^^^ b)) 0xFFFFFFFF) ^^^ 0xFFFFFFFF

/-- Modelled from the spec: `word_from_bytes` from `am_defines.py`
(absent from the repository snapshot) — read the little-endian 32-bit
word at `offset` (spec §3 lays out all WU words little-endian on the
wire). -/
def word_from_bytes (b : List Nat) (offset : Nat) : Nat :=
  b.getD offset 0 + b.getD (offset + 1) 0 * 256 + b.getD (offset + 2) 0 * 65536 +
    b.getD (offset + 3) 0 * 16777216

/-- Modelled from the spec: `int_to_bytes` from `am_defines.py` (absent
from the repository snapshot) — the 4 little-endian bytes of a 32-bit
word, used by `send_command` to put the CRC-32 on the wire
(spec §4.5: "every outgoing message is `crc32_le(params) | params`"). -/
def int_to_bytes (n : Nat) : List Nat :=
  [n &&& 0xFF, (n >>> 8) &&& 0xFF, (n >>> 16) &&& 0xFF, (n >>> 24) &&& 0xFF]

/-- Modelled from the spec: `fill_word` from `am_defines.py` (absent from
the repository snapshot) — overwrite the 4 bytes at `offset` with the
little-endian encoding of `w` (spec §3 fixed little-endian field
offsets). -/
def fill_word (b : List Nat) (offset w : Nat) : List Nat :=
  (((b.set offset (w &&& 0xFF)).set (offset + 1) ((w >>> 8) &&& 0xFF)).set
    (offset + 2) ((w >>> 16) &&& 0xFF)).set (offset + 3) ((w >>> 24) &&& 0xFF)

/-- The bytes `send_command(params, ...)` writes to the serial port (src
lines 1306-1313): the CRC-32 of `params`, little-endian, then `params`. -/
def send_command_wire (params : List Nat) : List Nat :=
  int_to_bytes (crc32 params) ++ params

/-- The read/validate part of `send_command(params, response_len)` (src
lines 1315-1326): read exactly `response_len` bytes off the stream;
fewer is a failure. -/
def send_command (response_len : Nat) (stream : List Nat) : List Nat × Bool :=
  if (stream.take response_len).length ≠ response_len then ([], false)
  else (stream.take response_len, true)

/-- `send_ackd_command(command)` (src lines 1278-1300): send, read a
20-byte response, and check it.  Note the source's fall-through: the
ACK-status check runs only when the response's message type is ACK; a
well-formed response of any other type falls through to
`return (response, True)`. -/
def send_ackd_command (stream : List Nat) : List Nat × Bool :=
  if (send_command 20 stream).2 = false then ([], false)
  else if word_from_bytes (send_command 20 stream).1 4 &&& 0xFFFF =
      AM_SECBOOT_WIRED_MSGTYPE_ACK then
    if word_from_bytes (send_command 20 stream).1 12 ≠ AM_SECBOOT_WIRED_ACK_STATUS_SUCCESS then
      ([], false)
    else ((send_command 20 stream).1, true)
  else ((send_command 20 stream).1, true)

/-- A well-formed 20-byte response whose message type is STATUS (1), not
ACK: bytes 4..7 hold the little-endian word 1. -/
def nonAckResponse : List Nat :=
  [0, 0, 0, 0, 1, 0, 0, 0, 0, 0, 0, 0, 0, 0, 0, 0, 0, 0, 0, 0]

/-- C4 counterexample: `send_ackd_command` accepts (returns success for) a
well-formed 20-byte response whose message type is not ACK, because the
source's ACK check has no else branch. -/
theorem send_ackd_command_accepts_non_ack :
    (send_ackd_command nonAckResponse).2 = true ∧
    word_from_bytes nonAckResponse 4 &&& 0xFFFF ≠ AM_SECBOOT_WIRED_MSGTYPE_ACK := by
  constructor
  · rfl
  · decide

/-- C4 (amended): `send_ackd_command` fails exactly when the 20-byte read
is short, or when the response is an ACK whose status word is not
SUCCESS; a full 20-byte response whose message type is not ACK is
accepted and returned unchanged. -/
theorem send_ackd_command_semantics (stream : List Nat) :
    (stream.length < 20 → send_ackd_command stream = ([], false)) ∧
    (20 ≤ stream.length →
      word_from_bytes (stream.take 20) 4 &&& 0xFFFF = AM_SECBOOT_WIRED_MSGTYPE_ACK →
      word_from_bytes (stream.take 20) 12 ≠ AM_SECBOOT_WIRED_ACK_STATUS_SUCCESS →
      send_ackd_command stream = ([], false)) ∧
    (20 ≤ stream.length →
      word_from_bytes (stream.take 20) 4 &&& 0xFFFF = AM_SECBOOT_WIRED_MSGTYPE_ACK →
      word_from_bytes (stream.take 20) 12 = AM_SECBOOT_WIRED_ACK_STATUS_SUCCESS →
      send_ackd_command stream = (stream.take 20, true)) ∧
    (20 ≤ stream.length →
      word_from_bytes (stream.take 20) 4 &&& 0xFFFF ≠ AM_SECBOOT_WIRED_MSGTYPE_ACK →
      send_ackd_command stream = (stream.take 20, true)) := by
  have htl : (stream.take 20).length = min 20 stream.length := List.length_take 20 stream
  refine ⟨?_, ?_, ?_, ?_⟩
  · intro h
    have hbad : send_command 20 stream = ([], false) := by
      unfold send_command
      rw [if_pos (by rw [htl]; omega)]
    unfold send_ackd_command
    rw [hbad]
    rfl
  · intro h hack hstatus
    have hok : send_command 20 stream = (stream.take 20, true) := by
      unfold send_command
      rw [if_neg (by rw [htl]; omega)]
    unfold send_ackd_command
    rw [hok]
    rw [if_neg (by simp), if_pos hack, if_pos hstatus]
  · intro h hack hstatus
    have hok : send_command 20 stream = (stream.take 20, true) := by
      unfold send_command
      rw [if_neg (by rw [htl]; omega)]
    unfold send_ackd_command
    rw [hok]
    rw [if_neg (by simp), if_pos hack, if_neg (by simp [hstatus])]
  · intro h hack
    have hok : send_command 20 stream = (stream.take 20, true) := by
      unfold send_command
      rw [if_neg (by rw [htl]; omega)]
    unfold send_ackd_command
    rw [hok]
    rw [if_neg (by simp), if_neg hack]

/-- C4 witness: the amended semantics at concrete 20-byte streams — an
ACK with NACK status 7 (INVALID_ADDR) is rejected, an ACK with SUCCESS
is accepted, and a short stream is rejected. -/
theorem send_ackd_command_semantics_witness :
    send_ackd_command [0, 0, 0, 0, 7, 0, 0, 0, 2, 0, 0, 0, 7, 0, 0, 0, 0, 0, 0, 0] = ([], false) ∧
    send_ackd_command [0, 0, 0, 0, 7, 0, 0, 0, 2, 0, 0, 0, 0, 0, 0, 0, 0, 0, 0, 0] =
      ([0, 0, 0, 0, 7, 0, 0, 0, 2, 0, 0, 0, 0, 0, 0, 0, 0, 0, 0, 0], true) ∧
    send_ackd_command [1, 2, 3] = ([], false) :=
  ⟨(send_ackd_command_semantics [0, 0, 0, 0, 7, 0, 0, 0, 2, 0, 0, 0, 7, 0, 0, 0, 0, 0, 0, 0]).2.1
      (by decide) (by decide) (by decide),
    by
      have := (send_ackd_command_semantics
        [0, 0, 0, 0, 7, 0, 0, 0, 2, 0, 0, 0, 0, 0, 0, 0, 0, 0, 0, 0]).2.2.1
        (by decide) (by decide) (by decide)
      simpa using this,
    (send_ackd_command_semantics [1, 2, 3]).1 (by decide)⟩

/-- Bitwise-or of a left-shifted value with a small value is addition. -/
lemma shiftLeft_or_eq_add (a b k : Nat) (hb : b < 2 ^ k) :
    (a <<< k) ||| b = 2 ^ k * a + b := by
  apply Nat.eq_of_testBit_eq
  intro j
  rw [Nat.testBit_lor, Nat.testBit_mul_pow_two_add a hb j, Nat.testBit_shiftLeft]
  rcases Nat.lt_or_ge j k with hj | hj
  · rw [if_pos hj]
    simp [Nat.not_le_of_lt hj]
  · rw [if_neg (by omega)]
    have hbj : b.testBit j = false :=
      Nat.testBit_lt_two_pow (Nat.lt_of_lt_of_le hb (Nat.pow_le_pow_right (by norm_num) hj))
    simp [hbj, hj]

/-- Reassembling the four little-endian bytes of `w` yields `w mod 2^32`. -/
lemma word_bytes_recompose (w : Nat) :
    (w &&& 0xFF) + ((w >>> 8) &&& 0xFF) * 256 + ((w >>> 16) &&& 0xFF) * 65536 +
      ((w >>> 24) &&& 0xFF) * 16777216 = w % 4294967296 := by
  have h255 : (0xFF : Nat) = 2 ^ 8 - 1 := rfl
  rw [h255, Nat.and_pow_two_sub_one_eq_mod, Nat.and_pow_two_sub_one_eq_mod,
    Nat.and_pow_two_sub_one_eq_mod, Nat.and_pow_two_sub_one_eq_mod,
    Nat.shiftRight_eq_div_pow, Nat.shiftRight_eq_div_pow, Nat.shiftRight_eq_div_pow]
  omega

/-- The HELLO message body built in `connect_device` (src lines
1127-1128): 4 zero bytes filled with `(8<<16) | HELLO`. -/
def helloMsg : List Nat :=
  fill_word (List.replicate 4 0) 0 ((8 <<< 16) ||| AM_SECBOOT_WIRED_MSGTYPE_HELLO)

/-- The ABORT message body (src lines 1156-1158). -/
def abortMsg (abortVal : Nat) : List Nat :=
  fill_word (fill_word (List.replicate 8 0) 0
    ((12 <<< 16) ||| AM_SECBOOT_WIRED_MSGTYPE_ABORT)) 4 abortVal

/-- The OTADESC message body (src lines 1167-1169). -/
def otaDescMsg (otadescaddr : Nat) : List Nat :=
  fill_word (fill_word (List.replicate 8 0) 0
    ((12 <<< 16) ||| AM_SECBOOT_WIRED_MSGTYPE_OTADESC)) 4 otadescaddr

/-- The UPDATE message body (src lines 1206-1211). -/
def updateMsg (applen crcVal : Nat) : List Nat :=
  fill_word (fill_word (fill_word (fill_word (List.replicate 16 0) 0
    ((20 <<< 16) ||| AM_SECBOOT_WIRED_MSGTYPE_UPDATE)) 4 applen) 8 crcVal) 12 0

/-- The DATA message body (src lines 1236-1242): an 8-byte header with
`(chunklen+12) << 16 | DATA` and the sequence number, then the chunk. -/
def dataMsg (x : Nat) (chunk : List Nat) : List Nat :=
  fill_word (fill_word (List.replicate 8 0) 0
    (((chunk.length + 12) <<< 16) ||| AM_SECBOOT_WIRED_MSGTYPE_DATA)) 4 x ++ chunk

/-- The RESET message body (src lines 1259-1262). -/
def resetMsg (resetVal : Nat) : List Nat :=
  fill_word (fill_word (List.replicate 8 0) 0
    ((12 <<< 16) ||| AM_SECBOOT_WIRED_MSGTYPE_RESET)) 4 resetVal

/-- C5 counterexample: for the HELLO message the upper 16 bits of the
header word are 8 — the length of the whole wire message including the
4 CRC bytes — not `len(M_body) = 4`. -/
theorem wu_hello_length_field_counterexample :
    word_from_bytes helloMsg 0 >>> 16 ≠ helloMsg.length := by decide

/-- Reading the word at offset 0 of a message starting with the 4
little-endian bytes of `w`. -/
lemma word_from_bytes_hdr (w : Nat) (rest : List Nat) :
    word_from_bytes ((w &&& 0xFF) :: ((w >>> 8) &&& 0xFF) :: ((w >>> 16) &&& 0xFF) ::
      ((w >>> 24) &&& 0xFF) :: rest) 0 =
      (w &&& 0xFF) + ((w >>> 8) &&& 0xFF) * 256 + ((w >>> 16) &&& 0xFF) * 65536 +
        ((w >>> 24) &&& 0xFF) * 16777216 := rfl

/-- The ABORT header's upper 16 bits are the body length plus 4. -/
lemma abortMsg_word (v : Nat) :
    word_from_bytes (abortMsg v) 0 >>> 16 = (abortMsg v).length + 4 := by
  have h : abortMsg v =
      (((12 <<< 16) ||| AM_SECBOOT_WIRED_MSGTYPE_ABORT) &&& 0xFF) ::
      ((((12 <<< 16) ||| AM_SECBOOT_WIRED_MSGTYPE_ABORT) >>> 8) &&& 0xFF) ::
      ((((12 <<< 16) ||| AM_SECBOOT_WIRED_MSGTYPE_ABORT) >>> 16) &&& 0xFF) ::
      ((((12 <<< 16) ||| AM_SECBOOT_WIRED_MSGTYPE_ABORT) >>> 24) &&& 0xFF) ::
      (v &&& 0xFF) :: ((v >>> 8) &&& 0xFF) :: ((v >>> 16) &&& 0xFF) :: [(v >>> 24) &&& 0xFF] := rfl
  have hlen : (abortMsg v).length = 8 := rfl
  rw [h, word_from_bytes_hdr]
  rw [h] at hlen
  rw [hlen]
  decide

/-- The OTADESC header's upper 16 bits are the body length plus 4. -/
lemma otaDescMsg_word (v : Nat) :
    word_from_bytes (otaDescMsg v) 0 >>> 16 = (otaDescMsg v).length + 4 := by
  have h : otaDescMsg v =
      (((12 <<< 16) ||| AM_SECBOOT_WIRED_MSGTYPE_OTADESC) &&& 0xFF) ::
      ((((12 <<< 16) ||| AM_SECBOOT_WIRED_MSGTYPE_OTADESC) >>> 8) &&& 0xFF) ::
      ((((12 <<< 16) ||| AM_SECBOOT_WIRED_MSGTYPE_OTADESC) >>> 16) &&& 0xFF) ::
      ((((12 <<< 16) ||| AM_SECBOOT_WIRED_MSGTYPE_OTADESC) >>> 24) &&& 0xFF) ::
      (v &&& 0xFF) :: ((v >>> 8) &&& 0xFF) :: ((v >>> 16) &&& 0xFF) :: [(v >>> 24) &&& 0xFF] := rfl
  have hlen : (otaDescMsg v).length = 8 := rfl
  rw [h, word_from_bytes_hdr]
  rw [h] at hlen
  rw [hlen]
  decide

/-- The RESET header's upper 16 bits are the body length plus 4. -/
lemma resetMsg_word (v : Nat) :
    word_from_bytes (resetMsg v) 0 >>> 16 = (resetMsg v).length + 4 := by
  have h : resetMsg v =
      (((12 <<< 16) ||| AM_SECBOOT_WIRED_MSGTYPE_RESET) &&& 0xFF) ::
      ((((12 <<< 16) ||| AM_SECBOOT_WIRED_MSGTYPE_RESET) >>> 8) &&& 0xFF) ::
      ((((12 <<< 16) ||| AM_SECBOOT_WIRED_MSGTYPE_RESET) >>> 16) &&& 0xFF) ::
      ((((12 <<< 16) ||| AM_SECBOOT_WIRED_MSGTYPE_RESET) >>> 24) &&& 0xFF) ::
      (v &&& 0xFF) :: ((v >>> 8) &&& 0xFF) :: ((v >>> 16) &&& 0xFF) :: [(v >>> 24) &&& 0xFF] := rfl
  have hlen : (resetMsg v).length = 8 := rfl
  rw [h, word_from_bytes_hdr]
  rw [h] at hlen
  rw [hlen]
  decide

/-- The UPDATE header's upper 16 bits are the body length plus 4. -/
lemma updateMsg_word (a c : Nat) :
    word_from_bytes (updateMsg a c) 0 >>> 16 = (updateMsg a c).length + 4 := by
  have h : updateMsg a c =
      (((20 <<< 16) ||| AM_SECBOOT_WIRED_MSGTYPE_UPDATE) &&& 0xFF) ::
      ((((20 <<< 16) ||| AM_SECBOOT_WIRED_MSGTYPE_UPDATE) >>> 8) &&& 0xFF) ::
      ((((20 <<< 16) ||| AM_SECBOOT_WIRED_MSGTYPE_UPDATE) >>> 16) &&& 0xFF) ::
      ((((20 <<< 16) ||| AM_SECBOOT_WIRED_MSGTYPE_UPDATE) >>> 24) &&& 0xFF) ::
      (a &&& 0xFF) :: ((a >>> 8) &&& 0xFF) :: ((a >>> 16) &&& 0xFF) :: ((a >>> 24) &&& 0xFF) ::
      (c &&& 0xFF) :: ((c >>> 8) &&& 0xFF) :: ((c >>> 16) &&& 0xFF) :: ((c >>> 24) &&& 0xFF) ::
      (0 &&& 0xFF) :: ((0 >>> 8) &&& 0xFF) :: ((0 >>> 16) &&& 0xFF) :: [(0 >>> 24) &&& 0xFF] := rfl
  have hlen : (updateMsg a c).length = 16 := rfl
  rw [h, word_from_bytes_hdr]
  rw [h] at hlen
  rw [hlen]
  decide

/-- The DATA message body is the 8 header bytes plus the chunk. -/
lemma dataMsg_length (x : Nat) (chunk : List Nat) :
    (dataMsg x chunk).length = 8 + chunk.length := by
  simp [dataMsg, fill_word]
  omega

/-- The DATA header's upper 16 bits decode to `chunklen + 12`. -/
lemma dataMsg_headerWord (x : Nat) (chunk : List Nat) (hc : chunk.length + 12 < 65536) :
    word_from_bytes (dataMsg x chunk) 0 >>> 16 = chunk.length + 12 := by
  have h : dataMsg x chunk =
      ((((chunk.length + 12) <<< 16) ||| AM_SECBOOT_WIRED_MSGTYPE_DATA) &&& 0xFF) ::
      (((((chunk.length + 12) <<< 16) ||| AM_SECBOOT_WIRED_MSGTYPE_DATA) >>> 8) &&& 0xFF) ::
      (((((chunk.length + 12) <<< 16) ||| AM_SECBOOT_WIRED_MSGTYPE_DATA) >>> 16) &&& 0xFF) ::
      (((((chunk.length + 12) <<< 16) ||| AM_SECBOOT_WIRED_MSGTYPE_DATA) >>> 24) &&& 0xFF) ::
      (x &&& 0xFF) :: ((x >>> 8) &&& 0xFF) :: ((x >>> 16) &&& 0xFF) :: ((x >>> 24) &&& 0xFF) ::
      chunk := rfl
  rw [h, word_from_bytes_hdr, word_bytes_recompose]
  rw [show AM_SECBOOT_WIRED_MSGTYPE_DATA = 8 from rfl]
  rw [shiftLeft_or_eq_add (chunk.length + 12) 8 16 (by decide)]
  rw [Nat.shiftRight_eq_div_pow]
  have h32 : 2 ^ 16 * (chunk.length + 12) + 8 < 4294967296 := by omega
  rw [Nat.mod_eq_of_lt h32]
  omega

/-- C5 (amended): for every WU message the host sends (HELLO, ABORT,
OTADESC, UPDATE, DATA, RESET), the first 4 bytes on the wire are the
little-endian CRC-32 of the body, and the upper 16 bits of the body's
header word equal `len(M_body) + 4` — the length of the whole wire
message including the 4 CRC bytes. -/
theorem wu_message_framing (abortVal otadescaddr applen crcVal resetVal x : Nat)
    (chunk : List Nat) (hchunk : chunk.length + 12 < 65536) :
    ((send_command_wire helloMsg).take 4 = int_to_bytes (crc32 helloMsg) ∧
      word_from_bytes helloMsg 0 >>> 16 = helloMsg.length + 4) ∧
    ((send_command_wire (abortMsg abortVal)).take 4 = int_to_bytes (crc32 (abortMsg abortVal)) ∧
      word_from_bytes (abortMsg abortVal) 0 >>> 16 = (abortMsg abortVal).length + 4) ∧
    ((send_command_wire (otaDescMsg otadescaddr)).take 4 =
        int_to_bytes (crc32 (otaDescMsg otadescaddr)) ∧
      word_from_bytes (otaDescMsg otadescaddr) 0 >>> 16 = (otaDescMsg otadescaddr).length + 4) ∧
    ((send_command_wire (updateMsg applen crcVal)).take 4 =
        int_to_bytes (crc32 (updateMsg applen crcVal)) ∧
      word_from_bytes (updateMsg applen crcVal) 0 >>> 16 = (updateMsg applen crcVal).length + 4) ∧
    ((send_command_wire (dataMsg x chunk)).take 4 = int_to_bytes (crc32 (dataMsg x chunk)) ∧
      word_from_bytes (dataMsg x chunk) 0 >>> 16 = (dataMsg x chunk).length + 4) ∧
    ((send_command_wire (resetMsg resetVal)).take 4 = int_to_bytes (crc32 (resetMsg resetVal)) ∧
      word_from_bytes (resetMsg resetVal) 0 >>> 16 = (resetMsg resetVal).length + 4) := by
  refine ⟨⟨rfl, by decide⟩, ⟨rfl, abortMsg_word abortVal⟩, ⟨rfl, otaDescMsg_word otadescaddr⟩,
    ⟨rfl, updateMsg_word applen crcVal⟩, ⟨rfl, ?_⟩, ⟨rfl, resetMsg_word resetVal⟩⟩
  rw [dataMsg_headerWord x chunk hchunk, dataMsg_length]
  omega

/-- C5 witness: the framing at concrete parameters, with a one-byte DATA
chunk. -/
theorem wu_message_framing_witness :
    ((send_command_wire helloMsg).take 4 = int_to_bytes (crc32 helloMsg) ∧
      word_from_bytes helloMsg 0 >>> 16 = helloMsg.length + 4) ∧
    ((send_command_wire (abortMsg 1)).take 4 = int_to_bytes (crc32 (abortMsg 1)) ∧
      word_from_bytes (abortMsg 1) 0 >>> 16 = (abortMsg 1).length + 4) ∧
    ((send_command_wire (otaDescMsg 0xFE000)).take 4 =
        int_to_bytes (crc32 (otaDescMsg 0xFE000)) ∧
      word_from_bytes (otaDescMsg 0xFE000) 0 >>> 16 = (otaDescMsg 0xFE000).length + 4) ∧
    ((send_command_wire (updateMsg 4 0)).take 4 = int_to_bytes (crc32 (updateMsg 4 0)) ∧
      word_from_bytes (updateMsg 4 0) 0 >>> 16 = (updateMsg 4 0).length + 4) ∧
    ((send_command_wire (dataMsg 0 [0xAB])).take 4 = int_to_bytes (crc32 (dataMsg 0 [0xAB])) ∧
      word_from_bytes (dataMsg 0 [0xAB]) 0 >>> 16 = (dataMsg 0 [0xAB]).length + 4) ∧
    ((send_command_wire (resetMsg 2)).take 4 = int_to_bytes (crc32 (resetMsg 2)) ∧
      word_from_bytes (resetMsg 2) 0 >>> 16 = (resetMsg 2).length + 4) :=
  wu_message_framing 1 0xFE000 4 0 2 0 [0xAB] (by decide)

/-- Image header constants from `RemoteWidget.__init__` (src lines
190-263). -/
def AM_IMAGE_MAGIC_MAIN : Nat := 0xC0

/-- Magic number for child images. -/
def AM_IMAGE_MAGIC_CHILD : Nat := 0xCC

/-- Magic number for non-secure images. -/
def AM_IMAGE_MAGIC_NONSECURE : Nat := 0xCB

/-- Magic number for INFO0 images. -/
def AM_IMAGE_MAGIC_INFO0 : Nat := 0xCF

/-- Magic number for customer-patch images. -/
def AM_IMAGE_MAGIC_CUSTPATCH : Nat := 0xC1

/-- `AM_IMAGEHDR_SIZE_MAIN = 256` (src line 248). -/
def AM_IMAGEHDR_SIZE_MAIN : Nat := 256

/-- `AM_IMAGEHDR_SIZE_AUX = 112 + AM_KEK_SIZE = 128` (src line 249). -/
def AM_IMAGEHDR_SIZE_AUX : Nat := 112 + 16

/-- Header field offsets (src lines 250-261). -/
def AM_IMAGEHDR_OFFSET_CRC : Nat := 4

/-- Offset of the install signature. -/
def AM_IMAGEHDR_OFFSET_SIG : Nat := 16

/-- Offset of the AES IV. -/
def AM_IMAGEHDR_OFFSET_IV : Nat := 48

/-- Offset of the encrypted KEK. -/
def AM_IMAGEHDR_OFFSET_KEK : Nat := 64

/-- Offset of the clear-image signature: `KEK + AM_KEK_SIZE`. -/
def AM_IMAGEHDR_OFFSET_SIGCLR : Nat := 64 + 16

/-- First byte covered by the CRC: `OFFSET_CRC + AM_CRC_SIZE`. -/
def AM_IMAGEHDR_START_CRC : Nat := 4 + 4

/-- First byte covered by the install HMAC. -/
def AM_IMAGEHDR_START_HMAC_INST : Nat := 16 + 32

/-- First encrypted byte: `OFFSET_KEK + AM_KEK_SIZE`. -/
def AM_IMAGEHDR_START_ENCRYPT : Nat := 64 + 16

/-- First byte covered by the boot HMAC: `OFFSET_SIGCLR + SIG_SIZE`. -/
def AM_IMAGEHDR_START_HMAC : Nat := 80 + 32

/-- Offset of the load-address word. -/
def AM_IMAGEHDR_OFFSET_ADDR : Nat := 112

/-- Offset of the version/key word. -/
def AM_IMAGEHDR_OFFSET_VERKEY : Nat := 116

/-- Offset of the child pointers. -/
def AM_IMAGEHDR_OFFSET_CHILDPTR : Nat := 120

/-- `AM_HMAC_SIG_SIZE = 32` (src line 226). -/
def AM_HMAC_SIG_SIZE : Nat := 32

/-- `AM_SECBOOT_KEYIDX_BYTES = 16` (src line 245). -/
def AM_SECBOOT_KEYIDX_BYTES : Nat := 16

/-- AES-CBC block size in bytes (src line 247). -/
def AM_SECBOOT_AESCBC_BLOCK_SIZE_BYTES : Nat := 16

/-- `INFO_SIZE_BYTES = 8 * 1024` (src line 262). -/
def INFO_SIZE_BYTES : Nat := 8 * 1024

/-- Key-index bounds from `keys_info.py` (src lines 267-270). -/
def minAesKeyIdx : Nat := 8

/-- Highest AES key index. -/
def maxAesKeyIdx : Nat := 15

/-- Lowest HMAC key index. -/
def minHmacKeyIdx : Nat := 8

/-- Highest HMAC key index. -/
def maxHmacKeyIdx : Nat := 15

/-- `INFO_KEY` (src line 271). -/
def INFO_KEY : Nat := 0xd894e09e

/-- Modelled from the spec: `pad_to_block_size` from `am_defines.py`
(absent from the repository snapshot) — pad with zero bytes to a
multiple of `blockSize` (spec §4.4 step 1: "pad to 4-byte multiple (or
to 16-byte multiple when encryption is enabled)"). -/
def pad_to_block_size (text : List Nat) (blockSize : Nat) : List Nat :=
  text ++ List.replicate ((blockSize - text.length % blockSize) % blockSize) 0

/-- The `for x in range(0, count): b[offset + x] = src[x]` fill loops of
`bin2blob_process` (src lines 854-855, 877-881, 895-896). -/
def fillBytes (b : List Nat) (offset : Nat) (src : List Nat) : Nat → List Nat
  | 0 => b
  | n + 1 => (fillBytes b offset src n).set (offset + n) (src.getD n 0)

/-- Python slice `l[a:b]` with non-negative bounds. -/
def sliceN (l : List Nat) (a b : Nat) : List Nat := (l.take b).drop a

/-- The arguments of `bin2blob_process`, following the commented-out
standalone signature at src lines 734-735 (the GUI port reads them from
`self.*`; several occurrences inside the method still use the bare
parameter names of the original script — `magicNum`, `loadaddress`,
`protection`, `version`, `erasePrev` — which that signature maps to
these same values). -/
structure Bin2BlobArgs where
  loadaddress : Nat
  app : List Nat
  magic_num : Nat
  crcI : Nat
  crcB : Nat
  authI : Nat
  authB : Nat
  protection : Nat
  authkey : Nat
  kek : Nat
  version : Nat
  erasePrev : Nat
  child0 : Nat
  child1 : Nat
  authalgo : Nat
  encalgo : Nat

/-- The clear-header phase of `bin2blob_process` (src lines 777-842): a
zeroed header of `hdr_length` bytes with w0, w2, the address word, the
version/key word and the two child pointers stored at their offsets. -/
def bin2blobClearHdr (hdr_length w0 w2 addrWord versionKeyWord child0 child1 : Nat) : List Nat :=
  fill_word (fill_word (fill_word (fill_word (fill_word (fill_word
    (List.replicate hdr_length 0) 0 w0) 8 w2) AM_IMAGEHDR_OFFSET_ADDR addrWord)
    AM_IMAGEHDR_OFFSET_VERKEY versionKeyWord) AM_IMAGEHDR_OFFSET_CHILDPTR child0)
    (AM_IMAGEHDR_OFFSET_CHILDPTR + 4) child1

/-- `bin2blob_process` (src lines 733-909) as a function: builds the OTA
blob header and body.  `hmacF`/`aesF` stand for `compute_hmac` and
`encrypt_app_aes`, `ivValAes`/`keyAes` for the two `os.urandom` draws,
`keyTblHmac`/`keyTblAes`/`ivVal0` for the key material from
`keys_info.py` — none of those are exercised when authentication and
encryption are disabled.  Returns `none` on the source's early-error
returns, otherwise the final 128/256-byte header and the emitted blob
(`header[0:START_ENCRYPT] ++ enc_binarray`). -/
def bin2blob (hmacF : List Nat → List Nat → List Nat)
    (aesF : List Nat → List Nat → List Nat → List Nat)
    (ivValAes keyAes keyTblHmac keyTblAes ivVal0 : List Nat)
    (a : Bin2BlobArgs) : Option (List Nat × List Nat) :=
  let encKeyIdx := a.kek
  let encVal : Nat := if a.encalgo ≠ 0 then 1 else 0
  if a.encalgo ≠ 0 ∧ (encKeyIdx < minAesKeyIdx ∨ maxAesKeyIdx < encKeyIdx) then none
  else if a.encalgo ≠ 0 ∧ a.encalgo = 2 ∧ encKeyIdx &&& 0x1 ≠ 0 then none
  else
    let keySize : Nat := if a.encalgo = 2 then 32 else 16
    let authKeyIdx := a.authkey
    if a.authalgo ≠ 0 ∧
        (authKeyIdx < minHmacKeyIdx ∨ maxHmacKeyIdx < authKeyIdx ∨ authKeyIdx &&& 0x1 ≠ 0) then
      none
    else
      let hdrLen? : Option Nat :=
        if a.magic_num = AM_IMAGE_MAGIC_MAIN then some AM_IMAGEHDR_SIZE_MAIN
        else if a.magic_num = AM_IMAGE_MAGIC_CHILD ∨ a.magic_num = AM_IMAGE_MAGIC_CUSTPATCH ∨
            a.magic_num = AM_IMAGE_MAGIC_NONSECURE ∨ a.magic_num = AM_IMAGE_MAGIC_INFO0 then
          some AM_IMAGEHDR_SIZE_AUX
        else none
      match hdrLen? with
      | none => none
      | some hdr_length =>
        let orig_app_length := a.app.length
        if a.loadaddress &&& 0x3 ≠ 0 then none
        else if a.magic_num = AM_IMAGE_MAGIC_INFO0 ∧ orig_app_length &&& 0x3 ≠ 0 then none
        else if a.magic_num = AM_IMAGE_MAGIC_INFO0 ∧
            INFO_SIZE_BYTES < a.loadaddress + orig_app_length then none
        else
          let app_binarray :=
            if encVal = 1 then pad_to_block_size a.app AM_SECBOOT_AESCBC_BLOCK_SIZE_BYTES
            else pad_to_block_size a.app 4
          let app_length := app_binarray.length
          let blobLen := hdr_length + app_length
          let w0 := (a.magic_num <<< 24) ||| ((encVal &&& 0x1) <<< 23) ||| blobLen
          let securityVal := (((a.authI <<< 1) ||| a.crcI) <<< 4) ||| (a.authB <<< 1) ||| a.crcB
          let w2 := ((securityVal <<< 24) &&& 0xff000000) ||| (a.authalgo &&& 0xf) |||
            ((authKeyIdx <<< 4) &&& 0xf0) ||| ((a.encalgo <<< 8) &&& 0xf00) |||
            ((encKeyIdx <<< 12) &&& 0xf000)
          let addrWord :=
            if a.magic_num = AM_IMAGE_MAGIC_INFO0 then
              ((orig_app_length >>> 2) <<< 16) ||| ((a.loadaddress >>> 2) &&& 0xFFFF)
            else a.loadaddress ||| (a.protection &&& 0x3)
          let versionKeyWord :=
            if a.magic_num = AM_IMAGE_MAGIC_INFO0 then INFO_KEY
            else (a.version &&& 0x7FFF) ||| ((a.erasePrev &&& 0x1) <<< 15)
          let hdr6 := bin2blobClearHdr hdr_length w0 w2 addrWord versionKeyWord a.child0 a.child1
          let authKeyIdx2 := authKeyIdx - minHmacKeyIdx
          let hdr7 :=
            if a.authB ≠ 0 then
              fillBytes hdr6 AM_IMAGEHDR_OFFSET_SIGCLR
                (hmacF (sliceN keyTblHmac (authKeyIdx2 * AM_SECBOOT_KEYIDX_BYTES)
                    (authKeyIdx2 * AM_SECBOOT_KEYIDX_BYTES + AM_HMAC_SIG_SIZE))
                  (sliceN hdr6 AM_IMAGEHDR_START_HMAC hdr_length ++ app_binarray))
                AM_HMAC_SIG_SIZE
            else hdr6
          let enc_binarray :=
            if encVal = 1 then
              aesF (sliceN hdr7 AM_IMAGEHDR_START_ENCRYPT hdr_length ++ app_binarray)
                keyAes ivValAes
            else sliceN hdr7 AM_IMAGEHDR_START_ENCRYPT hdr_length ++ app_binarray
          let hdr8 :=
            if encVal = 1 then
              fillBytes
                (fillBytes hdr7 AM_IMAGEHDR_OFFSET_IV ivValAes
                  AM_SECBOOT_AESCBC_BLOCK_SIZE_BYTES)
                AM_IMAGEHDR_OFFSET_KEK
                (aesF keyAes
                  (sliceN keyTblAes ((encKeyIdx - minAesKeyIdx) * keySize)
                    ((encKeyIdx - minAesKeyIdx) * keySize + keySize))
                  ivVal0)
                keySize
            else hdr7
          let hdr9 :=
            if a.authI ≠ 0 then
              fillBytes hdr8 AM_IMAGEHDR_OFFSET_SIG
                (hmacF (sliceN keyTblHmac (authKeyIdx2 * AM_SECBOOT_KEYIDX_BYTES)
                    (authKeyIdx2 * AM_SECBOOT_KEYIDX_BYTES + AM_HMAC_SIG_SIZE))
                  (sliceN hdr8 AM_IMAGEHDR_START_HMAC_INST AM_IMAGEHDR_START_ENCRYPT ++
                    enc_binarray))
                AM_HMAC_SIG_SIZE
            else hdr8
          let crc := crc32 (sliceN hdr9 AM_IMAGEHDR_START_CRC hdr_length ++ app_binarray)
          let hdr10 := fill_word hdr9 AM_IMAGEHDR_OFFSET_CRC crc
          some (hdr10, sliceN hdr10 0 AM_IMAGEHDR_START_ENCRYPT ++ enc_binarray)

/-- A placeholder for the unused HMAC function. -/
def nilHmac : List Nat → List Nat → List Nat := fun _ _ => []

/-- A placeholder for the unused AES function. -/
def nilAes : List Nat → List Nat → List Nat → List Nat := fun _ _ _ => []

/-- The S4 scenario inputs: `app = [0x00,0x01,0x02,0x03]`,
`load_address_blob = 0x20000`, `magic_num = 0xCB`, everything else at
the source's `__init__` defaults (src lines 196-211): `crcI = 1`,
`crcB = authI = authB = 0`, `protection = 0`, `authkey = kek = 8`,
`version = erasePrev = 0`, `child0 = child1 = 0xFFFFFFFF`,
`authalgo = encalgo = 0`. -/
def s4args : Bin2BlobArgs :=
  { loadaddress := 0x20000, app := [0x00, 0x01, 0x02, 0x03], magic_num := 0xCB
    crcI := 1, crcB := 0, authI := 0, authB := 0, protection := 0
    authkey := 8, kek := 8, version := 0, erasePrev := 0
    child0 := 0xFFFFFFFF, child1 := 0xFFFFFFFF, authalgo := 0, encalgo := 0 }

/-- The header `bin2blob_process` builds on the S4 inputs. -/
def s4hdr : List Nat :=
  ((bin2blob nilHmac nilAes [] [] [] [] [] s4args).map Prod.fst).getD []

/-- The clear header `bin2blob_process` builds on the S4 inputs, with the
literal word values: w0 = 0xCB000084, w2 = 0x10008080, addrWord =
0x20000, versionKeyWord = 0, child pointers 0xFFFFFFFF. -/
def s4clear : List Nat :=
  bin2blobClearHdr 128 0xCB000084 0x10008080 0x20000 0 0xFFFFFFFF 0xFFFFFFFF

set_option maxRecDepth 8192 in
/-- On the S4 inputs, `bin2blob` reaches the final `some`: the header is
the clear header with the CRC-32 of `clear_header[8..128] || app` stored
at offset 4, and the blob is `header[0:80] ++ clear_header[80:128] ++ app`. -/
lemma bin2blob_s4_some : bin2blob nilHmac nilAes [] [] [] [] [] s4args =
    some (fill_word s4clear 4 (crc32 (sliceN s4clear 8 128 ++ [0x00, 0x01, 0x02, 0x03])),
      sliceN (fill_word s4clear 4 (crc32 (sliceN s4clear 8 128 ++ [0x00, 0x01, 0x02, 0x03]))) 0 80 ++
        (sliceN s4clear 80 128 ++ [0x00, 0x01, 0x02, 0x03])) := by
  unfold bin2blob s4args AM_IMAGE_MAGIC_MAIN AM_IMAGE_MAGIC_CHILD AM_IMAGE_MAGIC_CUSTPATCH AM_IMAGE_MAGIC_NONSECURE AM_IMAGE_MAGIC_INFO0 AM_IMAGEHDR_SIZE_MAIN AM_IMAGEHDR_SIZE_AUX INFO_SIZE_BYTES AM_IMAGEHDR_START_CRC AM_IMAGEHDR_START_ENCRYPT AM_IMAGEHDR_OFFSET_CRC
  norm_num [(by decide : pad_to_block_size [0x00, 0x01, 0x02, 0x03] 4 = [0x00, 0x01, 0x02, 0x03])]
  rw [(by decide : bin2blobClearHdr 128 (203 <<< 24 ||| 132)
    (1 <<< 4 <<< 24 &&& 4278190080 ||| 8 <<< 4 &&& 240 ||| 8 <<< 12 &&& 61440)
    131072 0 4294967295 4294967295 = s4clear)]
  exact ⟨by decide, rfl, rfl⟩

set_option maxRecDepth 8192 in
/-- On the S4 inputs, the header `bin2blob` returns is the clear header
with the CRC-32 of `clear_header[8..128] || app` stored at offset 4. -/
lemma s4hdr_eq : s4hdr =
    fill_word s4clear 4 (crc32 ((s4clear.take 128).drop 8 ++ [0x00, 0x01, 0x02, 0x03])) := by
  have h : ((s4clear.take 128).drop 8 : List Nat) = sliceN s4clear 8 128 := rfl
  rw [s4hdr, bin2blob_s4_some, h]
  rfl

/-- `getD` after `set` at the written index. -/
lemma getD_set_eq (l : List Nat) (i a : Nat) (h : i < l.length) :
    (l.set i a).getD i 0 = a := by
  rw [List.getD_eq_getElem?_getD, List.getElem?_set_self h]
  rfl

/-- `getD` after `set` at a different index. -/
lemma getD_set_ne (l : List Nat) (i j a : Nat) (h : i ≠ j) :
    (l.set i a).getD j 0 = l.getD j 0 := by
  rw [List.getD_eq_getElem?_getD, List.getD_eq_getElem?_getD, List.getElem?_set_ne h]

/-- Reading back the word just stored by `fill_word`. -/
lemma word_from_bytes_fill_word (l : List Nat) (off w : Nat) (h : off + 3 < l.length) :
    word_from_bytes (fill_word l off w) off =
      (w &&& 0xFF) + ((w >>> 8) &&& 0xFF) * 256 + ((w >>> 16) &&& 0xFF) * 65536 +
        ((w >>> 24) &&& 0xFF) * 16777216 := by
  unfold fill_word word_from_bytes
  rw [getD_set_ne _ _ _ _ (by omega), getD_set_ne _ _ _ _ (by omega),
    getD_set_ne _ _ _ _ (by omega), getD_set_eq _ _ _ (by simpa using by omega)]
  rw [getD_set_ne _ _ _ _ (by omega), getD_set_ne _ _ _ _ (by omega),
    getD_set_eq _ _ _ (by simpa using by omega)]
  rw [getD_set_ne _ _ _ _ (by omega), getD_set_eq _ _ _ (by simpa using by omega)]
  rw [getD_set_eq _ _ _ (by simpa using by omega)]

/-- Dropping past the word just stored by `fill_word` sees the old list. -/
lemma drop_fill_word (l : List Nat) (w c n : Nat) (h : w + 3 < n) :
    (fill_word l w c).drop n = l.drop n := by
  unfold fill_word
  rw [List.drop_set_of_lt _ _ (by omega), List.drop_set_of_lt _ _ (by omega),
    List.drop_set_of_lt _ _ (by omega), List.drop_set_of_lt _ _ (by omega)]

/-- A CRC-32 bit step stays below 2^32 (for 32-bit registers). -/
lemma crc32Bit_lt (c : Nat) (h : c < 4294967296) : crc32Bit c < 4294967296 := by
  unfold crc32Bit
  have hs : c >>> 1 < 4294967296 := by
    rw [Nat.shiftRight_eq_div_pow]
    omega
  split_ifs
  · have h1 : c >>> 1 < 2 ^ 32 := by simpa using hs
    have h2 : (0xEDB88320 : Nat) < 2 ^ 32 := by norm_num
    have := Nat.xor_lt_two_pow h1 h2
    simpa using this
  · exact hs

/-- Iterated CRC-32 bit steps stay below 2^32. -/
lemma crc32Bits_lt : ∀ (n c : Nat), c < 4294967296 → crc32Bits n c < 4294967296
  | 0, _, h => h
  | n + 1, c, h => crc32Bits_lt n (crc32Bit c) (crc32Bit_lt c h)

/-- `crc32` of a stream of 32-bit values is a 32-bit value. -/
lemma crc32_lt (data : List Nat) (hdata : ∀ b ∈ data, b < 4294967296) :
    crc32 data < 4294967296 := by
  unfold crc32
  have hfold : ∀ (l : List Nat) (c : Nat), (∀ b ∈ l, b < 4294967296) → c < 4294967296 →
      l.foldl (fun c b => crc32Bits 8 (c ^^^ b)) c < 4294967296 := by
    intro l
    induction l with
    | nil => intro c _ hc; simpa using hc
    | cons b rest ih =>
      intro c hl hc
      rw [List.foldl_cons]
      refine ih _ (fun q hq => hl q (List.mem_cons_of_mem b hq)) ?_
      refine crc32Bits_lt 8 _ ?_
      have h1 : c < 2 ^ 32 := by simpa using hc
      have h2 : b < 2 ^ 32 := by simpa using hl b (List.mem_cons_self b rest)
      have := Nat.xor_lt_two_pow h1 h2
      simpa using this
  have h1 : data.foldl (fun c b => crc32Bits 8 (c ^^^ b)) 0xFFFFFFFF < 2 ^ 32 := by
    simpa using hfold data 0xFFFFFFFF hdata (by norm_num)
  have h2 : (0xFFFFFFFF : Nat) < 2 ^ 32 := by norm_num
  have := Nat.xor_lt_two_pow h1 h2
  simpa using this

set_option maxRecDepth 8192 in
/-- C8 counterexample: on the S4 inputs the header word w2 is not 0 —
the source OR-s the default key indices (`authkey = kek = 8`) and the
default `crcI = 1` into w2 even with authentication and encryption
disabled (src lines 815-817). -/
theorem bin2blob_s4_w2_nonzero : word_from_bytes s4hdr 8 ≠ 0 := by
  rw [s4hdr_eq]
  decide

set_option maxRecDepth 8192 in
/-- C8 (amended): on the S4 inputs the 128-byte header has
`w0 = 0xCB000084`, `w2 = 0x10008080` (securityVal with the default
`crcI = 1`, plus the default key indices 8 in nibbles 1 and 3),
`addrWord = 0x00020000`, `versionKeyWord = 0`, `child0 = child1 =
0xFFFFFFFF`, and `w1` is the CRC-32 over `header[8..128] || padded_app`. -/
theorem bin2blob_s4_fields :
    s4hdr.length = 128 ∧
    word_from_bytes s4hdr 0 = 0xCB000084 ∧
    word_from_bytes s4hdr 8 = 0x10008080 ∧
    word_from_bytes s4hdr 112 = 0x00020000 ∧
    word_from_bytes s4hdr 116 = 0 ∧
    word_from_bytes s4hdr 120 = 0xFFFFFFFF ∧
    word_from_bytes s4hdr 124 = 0xFFFFFFFF ∧
    word_from_bytes s4hdr 4 = crc32 ((s4hdr.take 128).drop 8 ++ [0x00, 0x01, 0x02, 0x03]) := by
  rw [s4hdr_eq]
  refine ⟨by decide, by decide, by decide, by decide, by decide, by decide, by decide, ?_⟩
  have hlen : s4clear.length = 128 := by decide
  rw [word_from_bytes_fill_word _ _ _ (by omega), word_bytes_recompose]
  have hbytes : ∀ b ∈ (s4clear.take 128).drop 8 ++ [0x00, 0x01, 0x02, 0x03],
      b < 4294967296 := by decide
  rw [Nat.mod_eq_of_lt (crc32_lt _ hbytes)]
  have hslice : ∀ c : Nat,
      ((fill_word s4clear 4 c).take 128).drop 8 = (s4clear.take 128).drop 8 := by
    intro c
    rw [List.drop_take, List.drop_take, drop_fill_word _ _ _ _ (by omega)]
  rw [hslice]

end Artemis
